import Mathlib

/-!
Verification of the meteor-mongo-transactions core (the implementation in
`src/unnamed/part_010`): ambient transaction context, collection-method
interception, callback completion tracking, and the transaction executor
(`runWithoutRetry`, `runWithRetry`, `runInTransaction`).

The embedding models JavaScript values shallowly (`JSVal`), the intercepted
argument rewriting (`getOptionsAndCallbackArgs` and the per-arity method
wrappers), the callback completion tracker as a trace semantics
(`CbEvent`, `trackerStep`), and the executor as a pure function over an
explicit backend state (staged writes, committed store, backend events).
External collaborators (the MongoDB driver session and the Meteor
environment-variable slot) are modelled by their documented contracts:
`withValue` restores the prior slot value on every exit, commit applies the
staged writes, abort discards them, and the retrying primitive
`session.withTransaction` is abstracted to a single attempt since the core
delegates retry classification to the backend.
-/

namespace MongoTx

/-- Shallow model of JavaScript runtime values, as far as the interception
logic inspects them: `typeof x` is only compared against the string
"function", objects are association lists of own enumerable properties,
and a backend session handle is an opaque tagged value. -/
inductive JSVal where
  | undef
  | null
  | bool (b : Bool)
  | num (n : Int)
  | str (s : String)
  | func (id : Nat)
  | obj (fields : List (String × JSVal))
  | arr (elems : List JSVal)
  | session (id : Nat)
  | errObj (msg : String)
  deriving Repr

/-- JavaScript test of whether `typeof x` equals the string "function". -/
def typeofFunction : JSVal → Bool
  | .func _ => true
  | _ => false

/-- JavaScript truthiness, used by `callback ? wrapCallback(callback) : undefined`
and by the `context.callbackErrors[0]` guard. -/
def truthy : JSVal → Bool
  | .undef => false
  | .null => false
  | .bool b => b
  | .num n => n != 0
  | .str s => s != ""
  | .func _ => true
  | .obj _ => true
  | .arr _ => true
  | .session _ => true
  | .errObj _ => true

/-- Property lookup on an object field list (first match wins, as a
JavaScript object holds one property per key). -/
def lookupField : List (String × JSVal) → String → Option JSVal
  | [], _ => none
  | (k, v) :: rest, key => if k = key then some v else lookupField rest key

/-- Effect of writing property `key` last in an object literal, as in
the source spread pattern: the value at `key` is replaced if present
(keeping its position) and appended otherwise. -/
def setField : List (String × JSVal) → String → JSVal → List (String × JSVal)
  | [], key, v => [(key, v)]
  | (k, w) :: rest, key, v =>
    if k = key then (key, v) :: rest else (k, w) :: setField rest key v

/-- Own enumerable properties contributed by a spread `{...x}`: an object
contributes its fields, an array its index-keyed elements, a string its
index-keyed characters, and primitives (and property-free handles such as
sessions, functions and plain Error instances) contribute nothing. -/
def spreadIntoObj : JSVal → List (String × JSVal)
  | .obj fields => fields
  | .arr elems => elems.enum.map (fun p => (toString p.1, p.2))
  | .str s => s.toList.enum.map (fun p => (toString p.1, JSVal.str p.2.toString))
  | _ => []

/-- `getOptionsAndCallbackArgs` from part_010 lines 129-159: rewrites the
trailing options/callback arguments of an intercepted method call. The
stateful `wrapCallback` is abstracted by the function `wrap` (its counter
effect is modelled by the tracker trace semantics below). `ctx` is the
session value of the ambient context when one is active. -/
def getOptionsAndCallbackArgs (ctx : Option JSVal) (wrap : JSVal → JSVal)
    (args : List JSVal) : List JSVal :=
  match ctx with
  | none => args
  | some session =>
    match args with
    | [] => [.obj [("session", session)]]
    | [optionsOrCallback] =>
      if typeofFunction optionsOrCallback then
        [.obj [("session", session)], wrap optionsOrCallback]
      else
        [.obj (setField (spreadIntoObj optionsOrCallback) "session" session)]
    | options :: callback :: _ =>
      [.obj (setField (spreadIntoObj options) "session" session),
       if truthy callback then wrap callback else .undef]

/-- Outcome of invoking a patched collection method: either the argument
list forwarded to the original driver method, or the fast-fail arity
diagnostic. -/
inductive PatchedCall where
  | call (args : List JSVal)
  | arityError (msg : String)
  deriving Repr

def arityMsg (maxArgs : Nat) (method : String) (got : Nat) : String :=
  "Fatal error: expected maximum of " ++ toString maxArgs ++ " arguments for "
    ++ method ++ " and got " ++ toString got ++ "."

/-- Wrapper installed for METHODS_WITH_ZERO_PARAMS (part_010 lines 228-239). -/
def zeroParamsWrapper (method : String) (ctx : Option JSVal)
    (wrap : JSVal → JSVal) (args : List JSVal) : PatchedCall :=
  if args.length > 2 then .arityError (arityMsg 2 method args.length)
  else .call (getOptionsAndCallbackArgs ctx wrap args)

/-- Wrapper installed for METHODS_WITH_ONE_PARAM (part_010 lines 241-258).
In the zero-argument branch the source invokes
`originalMethod.call(this, undefined, getOptionsAndCallbackArgs([]))`:
the helper is applied to a single empty-array argument and its array result
is passed as one value, without being spread. -/
def oneParamWrapper (method : String) (ctx : Option JSVal)
    (wrap : JSVal → JSVal) (args : List JSVal) : PatchedCall :=
  if args.length > 3 then .arityError (arityMsg 3 method args.length)
  else
    match args with
    | [] => .call [.undef, .arr (getOptionsAndCallbackArgs ctx wrap [.arr []])]
    | first :: other => .call (first :: getOptionsAndCallbackArgs ctx wrap other)

/-- Wrapper installed for METHODS_WITH_TWO_PARAMS (part_010 lines 260-282);
the zero- and one-argument branches share the unspread
`getOptionsAndCallbackArgs([])` call shape of the one-param wrapper. -/
def twoParamsWrapper (method : String) (ctx : Option JSVal)
    (wrap : JSVal → JSVal) (args : List JSVal) : PatchedCall :=
  if args.length > 4 then .arityError (arityMsg 4 method args.length)
  else
    match args with
    | [] => .call [.undef, .arr (getOptionsAndCallbackArgs ctx wrap [.arr []])]
    | [first] => .call [first, .undef, .arr (getOptionsAndCallbackArgs ctx wrap [.arr []])]
    | first :: second :: other =>
      .call (first :: second :: getOptionsAndCallbackArgs ctx wrap other)

/-- Wrapper installed for METHODS_WITH_THREE_PARAMS (part_010 lines 284-297):
destructuring pads missing positional arguments with undefined. -/
def threeParamsWrapper (method : String) (ctx : Option JSVal)
    (wrap : JSVal → JSVal) (args : List JSVal) : PatchedCall :=
  if args.length > 5 then .arityError (arityMsg 5 method args.length)
  else
    .call (args.getD 0 .undef :: args.getD 1 .undef :: args.getD 2 .undef ::
      getOptionsAndCallbackArgs ctx wrap (args.drop 3))

/-- Special-cased wrapper for `find` (part_010 lines 309-319): options only,
never a callback. -/
def findWrapper (ctx : Option JSVal) (query options : JSVal) : List JSVal :=
  match ctx with
  | some session => [query, .obj (setField (spreadIntoObj options) "session" session)]
  | none => [query, options]

/-! ## Completion tracker (part_010 lines 56-124)

The callback bookkeeping of one transaction extent is modelled as a trace of
events. `wrap` is the increment `context.callbackCount += 1` performed by
`wrapCallback` before it returns; `complete` is a wrapped callback returning
normally (the decrement and possible `resolveCallbacks()` call after
`callback.call`); `cbError` is a wrapped callback raising, in which case
`Meteor.bindEnvironment` routes the error to the patched `onException`
handler and the decrement after `callback.call` is skipped; `asyncError` is
any other function bound while the context was active raising (the patched
`Meteor.bindEnvironment` captures those too). The `onException` wrapper
appends the error to `context.callbackErrors` only when
`catchCallbackErrors` is set. -/

inductive CbEvent where
  | wrap
  | complete
  | cbError (e : JSVal)
  | asyncError (e : JSVal)

/-- The mutable callback fields of a SessionContext, together with a count
of how many times `resolveCallbacks` has been invoked. -/
structure TrackerState where
  callbackCount : Int
  callbackErrors : List JSVal
  resolveCount : Nat

def TrackerState.init : TrackerState := ⟨0, [], 0⟩

/-- One event of callback bookkeeping, as performed by `wrapCallback` and
the patched `bindEnvironment` in part_010. -/
def trackerStep (catchErrs : Bool) (st : TrackerState) : CbEvent → TrackerState
  | .wrap => { st with callbackCount := st.callbackCount + 1 }
  | .complete =>
    let c := st.callbackCount - 1
    { st with
      callbackCount := c,
      resolveCount := if c = 0 then st.resolveCount + 1 else st.resolveCount }
  | .cbError e =>
    if catchErrs then { st with callbackErrors := st.callbackErrors ++ [e] } else st
  | .asyncError e =>
    if catchErrs then { st with callbackErrors := st.callbackErrors ++ [e] } else st

/-- Tracker state after a trace of callback events, starting from the
freshly created context (`callbackCount: 0`, `callbackErrors: []`). -/
def runTracker (catchErrs : Bool) (t : List CbEvent) : TrackerState :=
  t.foldl (trackerStep catchErrs) .init

/-- A trace is well formed when every wrapped-callback invocation (normal or
raising) corresponds to a distinct previously wrapped callback: in every
prefix the number of invocations does not exceed the number of wraps.
`avail` counts callbacks wrapped so far and not yet invoked. -/
def wellFormedFrom : Nat → List CbEvent → Bool
  | _, [] => true
  | avail, .wrap :: rest => wellFormedFrom (avail + 1) rest
  | avail, .complete :: rest => decide (0 < avail) && wellFormedFrom (avail - 1) rest
  | avail, .cbError _ :: rest => decide (0 < avail) && wellFormedFrom (avail - 1) rest
  | avail, .asyncError _ :: rest => wellFormedFrom avail rest

def wellFormed (t : List CbEvent) : Prop := wellFormedFrom 0 t = true

/-- The errors captured by the patched `onException` along a trace, in
occurrence order. -/
def captured : List CbEvent → List JSVal
  | [] => []
  | .cbError e :: rest => e :: captured rest
  | .asyncError e :: rest => e :: captured rest
  | _ :: rest => captured rest

/-- The body `wrapCallback` hands to `Meteor.bindEnvironment` (part_010
lines 111-123): invoke the original callback with the invoker supplied
`this` and argument list; on normal return, decrement the count and fire
`resolveCallbacks` if it reached zero, then hand the callback result back
unchanged; on a raise, the decrement is skipped and `bindEnvironment`
routes the error to `onException` (captured when `catchCallbackErrors`). -/
def invokeWrapped (catchErrs : Bool) (cb : JSVal → List JSVal → Except JSVal JSVal)
    (st : TrackerState) (thisv : JSVal) (args : List JSVal) :
    Except JSVal JSVal × TrackerState :=
  match cb thisv args with
  | .ok callbackRes => (.ok callbackRes, trackerStep catchErrs st .complete)
  | .error e => (.error e, trackerStep catchErrs st (.cbError e))

/-! ## Errors and error aggregation (part_010 lines 30-44) -/

/-- Errors thrown by the executor: plain `new Error(msg)` values, and the
composite `CallbackError` carrying the captured callback errors. -/
inductive TErr where
  | error (msg : String)
  | callbackError (msg : String) (callbackErrors : List JSVal)
  deriving Repr

/-- Message selection of `createCallbackError`: the first captured error if
it is a string, its message if it is an Error instance, and a fixed
fallback otherwise (part_010 lines 37-41; the absent `errors[0]` of an
empty list is undefined). -/
def callbackMessage (errors : List JSVal) : String :=
  match errors.getD 0 .undef with
  | .str s => s
  | .errObj m => m
  | _ => "Unknown callback error."

/-- `createCallbackError` (part_010 lines 36-44). -/
def createCallbackError (errors : List JSVal) : TErr :=
  .callbackError (callbackMessage errors) errors

def nestedError : TErr := .error "Nested transactions are not supported"

/-! ## Transaction executor (part_010 lines 321-457)

The backend is modelled by the committed store plus the writes staged in
the open transaction; commit appends the staged writes to the store, abort
discards them. Backend calls are recorded as events so that properties
like "the session is ended exactly once" and "the executor did not block
on the drain wait" are statable. `BackendEnv` is the oracle for backend
failures: whether `commitTransaction` and `abortTransaction` reject. -/

structure Backend where
  store : List Nat
  staged : List Nat
  deriving Repr, DecidableEq

inductive Ev where
  | createSession
  | startTxn
  | waitedForCallbacks
  | commitTxn
  | abortTxn
  | endSession
  deriving Repr, DecidableEq

structure BackendEnv where
  commitErr : Option TErr
  abortErr : Option TErr

/-- The SessionContext installed by `runInTransaction` (part_010 lines
21-28 and 433-439), with the callback activity of the extent supplied as
a trace oracle: `preDrain` holds the callback events that have happened by
the time the drain check in the finally block runs, `duringDrain` the
events between the start of the drain wait and its return. -/
structure SessionCtx where
  catchCallbackErrors : Bool
  preDrain : List CbEvent
  duringDrain : List CbEvent

/-- A unit of work: the writes it issues through intercepted collection
methods (staged in the ambient session), whether it attempts a nested
`runInTransaction` call (catching the resulting error), and whether it
finally raises or returns `ret`. -/
structure UoW where
  writes : List Nat
  callsNested : Bool
  outcome : Option TErr
  ret : Nat

/-- The nesting guard at the top of `runInTransaction` (part_010 lines
422-424). -/
def nestingCheck (slot : Option SessionCtx) : Option TErr :=
  if slot.isSome then some nestedError else none

structure UoWRun where
  backend : Backend
  nestedResult : Option TErr
  outcome : Option TErr

/-- Running `fn(session)` with the context bound: intercepted writes are
staged on the session; a nested `runInTransaction` attempt hits the
nesting guard with the slot occupied and its error is caught by the unit
of work, with no backend effect (the guard precedes session creation). -/
def interpUoW (ctx : SessionCtx) (uow : UoW) (b : Backend) : UoWRun :=
  { backend := { b with staged := b.staged ++ uow.writes },
    nestedResult := if uow.callsNested then nestingCheck (some ctx) else none,
    outcome := uow.outcome }

/-- The drain logic in the finally block shared by both strategies
(part_010 lines 361-367 and 390-396): when a wait promise exists and the
callback count is positive, block on the promise, then raise the composite
error if the first captured error is truthy. Returns the wait event (if
the executor blocked) and the error the finally block throws. -/
def drainCheck (ctx : SessionCtx) (waitB : Bool) : List Ev × Option TErr :=
  if waitB = true ∧ 0 < (runTracker ctx.catchCallbackErrors ctx.preDrain).callbackCount then
    let stAfter := runTracker ctx.catchCallbackErrors (ctx.preDrain ++ ctx.duringDrain)
    if truthy (stAfter.callbackErrors.getD 0 .undef) then
      ([.waitedForCallbacks], some (createCallbackError stAfter.callbackErrors))
    else ([.waitedForCallbacks], none)
  else ([], none)

structure ExecOut where
  result : Except TErr Nat
  backend : Backend
  events : List Ev

/-- `runWithoutRetry` (part_010 lines 352-380). The error thrown by the
inner finally block replaces the error of the unit of work (JavaScript
try/finally semantics); any error leads to abort followed by a rethrow,
where a rejection of `abortTransaction` itself replaces the caught error;
`endSession` runs in the outer finally on every path. -/
def runWithoutRetry (env : BackendEnv) (ctx : SessionCtx) (uow : UoW)
    (waitB : Bool) (b : Backend) : ExecOut :=
  let r := interpUoW ctx uow { b with staged := [] }
  let dc := drainCheck ctx waitB
  match dc.2.orElse (fun _ => r.outcome) with
  | some e =>
    match env.abortErr with
    | none =>
      ⟨.error e, ⟨r.backend.store, []⟩, .startTxn :: dc.1 ++ [.abortTxn, .endSession]⟩
    | some ae =>
      ⟨.error ae, ⟨r.backend.store, []⟩, .startTxn :: dc.1 ++ [.abortTxn, .endSession]⟩
  | none =>
    match env.commitErr with
    | none =>
      ⟨.ok uow.ret, ⟨r.backend.store ++ r.backend.staged, []⟩,
        .startTxn :: dc.1 ++ [.commitTxn, .endSession]⟩
    | some ce =>
      match env.abortErr with
      | none =>
        ⟨.error ce, ⟨r.backend.store, []⟩,
          .startTxn :: dc.1 ++ [.commitTxn, .abortTxn, .endSession]⟩
      | some ae =>
        ⟨.error ae, ⟨r.backend.store, []⟩,
          .startTxn :: dc.1 ++ [.commitTxn, .abortTxn, .endSession]⟩

/-- `runWithRetry` (part_010 lines 382-409): the unit of work and the
drain check run inside `session.withTransaction`, which owns begin,
commit and abort; its internal retrying on transient errors is abstracted
to a single attempt. `endSession` runs in the finally on every path. -/
def runWithRetry (env : BackendEnv) (ctx : SessionCtx) (uow : UoW)
    (waitB : Bool) (b : Backend) : ExecOut :=
  let r := interpUoW ctx uow { b with staged := [] }
  let dc := drainCheck ctx waitB
  match dc.2.orElse (fun _ => r.outcome) with
  | some e =>
    ⟨.error e, ⟨r.backend.store, []⟩, .startTxn :: dc.1 ++ [.abortTxn, .endSession]⟩
  | none =>
    match env.commitErr with
    | none =>
      ⟨.ok uow.ret, ⟨r.backend.store ++ r.backend.staged, []⟩,
        .startTxn :: dc.1 ++ [.commitTxn, .endSession]⟩
    | some ce =>
      ⟨.error ce, ⟨r.backend.store, []⟩, .startTxn :: dc.1 ++ [.commitTxn, .endSession]⟩

/-- Recognized `runInTransaction` options (part_010 lines 330-344);
`sessionOptions` and `transactionOptions` are opaque passthroughs to the
backend and are omitted. -/
structure RunInTransactionOptions where
  retry : Bool
  waitForCallbacks : Bool
  catchCallbackErrors : Bool

/-- The callback activity that unfolds at run time, supplied to the model
as an oracle (it is determined by the scheduler, not by the executor). -/
structure CbOracle where
  preDrain : List CbEvent
  duringDrain : List CbEvent

/-- `runInTransaction` (part_010 lines 421-452): nesting guard, session
creation, context installation via the environment slot (whose value is
restored to the prior one on every exit, per the `withValue` contract of
the Meteor environment variable), then one of the two strategies. The
context flag is `!!options.waitForCallbacks && !!options.catchCallbackErrors`
and the wait promise exists only when `waitForCallbacks` is set. Returns
the outcome together with the slot value observed after the call. -/
def runInTransaction (slot : Option SessionCtx) (env : BackendEnv) (o : CbOracle)
    (uow : UoW) (opts : RunInTransactionOptions) (b : Backend) :
    ExecOut × Option SessionCtx :=
  match nestingCheck slot with
  | some e => (⟨.error e, b, []⟩, slot)
  | none =>
    let ctx : SessionCtx :=
      { catchCallbackErrors := opts.waitForCallbacks && opts.catchCallbackErrors,
        preDrain := o.preDrain, duringDrain := o.duringDrain }
    let out :=
      if opts.retry then runWithRetry env ctx uow opts.waitForCallbacks b
      else runWithoutRetry env ctx uow opts.waitForCallbacks b
    ({ out with events := .createSession :: out.events }, slot)

/-! ## Lemmas on object property update -/

theorem lookupField_setField_self (f : List (String × JSVal)) (key : String) (v : JSVal) :
    lookupField (setField f key v) key = some v := by
  induction f with
  | nil => simp [setField, lookupField]
  | cons hd tl ih =>
    obtain ⟨k, w⟩ := hd
    by_cases hk : k = key
    · simp [setField, hk, lookupField]
    · simp [setField, hk, lookupField, ih]

theorem lookupField_setField_ne (f : List (String × JSVal)) (key k : String) (v : JSVal)
    (hne : k ≠ key) : lookupField (setField f key v) k = lookupField f k := by
  induction f with
  | nil => simp [setField, lookupField, Ne.symm hne]
  | cons hd tl ih =>
    obtain ⟨k0, w⟩ := hd
    by_cases hk : k0 = key
    · subst hk
      simp [setField, lookupField, Ne.symm hne]
    · by_cases hk0 : k0 = k
      · subst hk0
        simp [setField, hk, lookupField]
      · simp [setField, hk, lookupField, hk0, ih]

/-! ## Claim theorems: operation interceptor -/

/-- Claim C4: with a context active, a trailing options argument is merged with
the context session — the session property of the forwarded options equals
the context session even when the caller supplied one, every other
property is preserved — and a bare callback as sole argument yields a
synthesized options object holding only the session; this is what the
patched methods forward to the underlying operation. -/
theorem session_injection_merges_options :
    ∀ (s : JSVal) (wrap : JSVal → JSVal) (fields : List (String × JSVal))
      (cb p q : JSVal) (fid : Nat) (m : String),
      getOptionsAndCallbackArgs (some s) wrap [.obj fields] =
        [.obj (setField fields "session" s)]
      ∧ lookupField (setField fields "session" s) "session" = some s
      ∧ (∀ k, k ≠ "session" →
          lookupField (setField fields "session" s) k = lookupField fields k)
      ∧ getOptionsAndCallbackArgs (some s) wrap [.obj fields, cb] =
          [.obj (setField fields "session" s), if truthy cb then wrap cb else .undef]
      ∧ getOptionsAndCallbackArgs (some s) wrap [.func fid] =
          [.obj [("session", s)], wrap (.func fid)]
      ∧ oneParamWrapper m (some s) wrap [p, .obj fields] =
          .call [p, .obj (setField fields "session" s)]
      ∧ twoParamsWrapper m (some s) wrap [p, q, .obj fields, cb] =
          .call [p, q, .obj (setField fields "session" s),
            if truthy cb then wrap cb else .undef]
      ∧ zeroParamsWrapper m (some s) wrap [.obj fields] =
          .call [.obj (setField fields "session" s)]
      ∧ findWrapper (some s) p (.obj fields) = [p, .obj (setField fields "session" s)] := by
  intro s wrap fields cb p q fid m
  refine ⟨rfl, lookupField_setField_self fields "session" s,
    fun k hk => lookupField_setField_ne fields "session" k s hk, rfl, rfl, ?_, ?_, rfl, rfl⟩
  · simp [oneParamWrapper, getOptionsAndCallbackArgs, spreadIntoObj, typeofFunction]
  · simp [twoParamsWrapper, getOptionsAndCallbackArgs, spreadIntoObj]

theorem session_injection_merges_options_witness :
    lookupField (setField [("session", JSVal.num 1), ("w", JSVal.num 2)] "session"
      (JSVal.session 5)) "session" = some (JSVal.session 5)
    ∧ lookupField (setField [("session", JSVal.num 1), ("w", JSVal.num 2)] "session"
        (JSVal.session 5)) "w" =
      lookupField [("session", JSVal.num 1), ("w", JSVal.num 2)] "w" :=
  ⟨(session_injection_merges_options (JSVal.session 5) id
      [("session", JSVal.num 1), ("w", JSVal.num 2)] .undef .undef .undef 0 "insertOne").2.1,
   (session_injection_merges_options (JSVal.session 5) id
      [("session", JSVal.num 1), ("w", JSVal.num 2)] .undef .undef .undef 0
      "insertOne").2.2.1 "w" (by decide)⟩

/-- Claim C7 (failing input): a one- or two-parameter method invoked with zero
arguments while a context with session `s` is active does not receive the
synthesized options object `{session: s}` in its options position: the
source calls `originalMethod.call(this, undefined, getOptionsAndCallbackArgs([]))`
without spreading, so the forwarded second argument is the one-element
array `[{session: s}]`, which is a different value. -/
theorem zeroArg_forwards_array_not_options :
    oneParamWrapper "aggregate" (some (.session 0)) id [] =
      .call [.undef, .arr [.obj [("session", .session 0)]]]
    ∧ twoParamsWrapper "update" (some (.session 0)) id [] =
      .call [.undef, .arr [.obj [("session", .session 0)]]]
    ∧ JSVal.arr [.obj [("session", .session 0)]] ≠ JSVal.obj [("session", .session 0)] := by
  refine ⟨rfl, rfl, ?_⟩
  intro h
  exact JSVal.noConfusion h

/-- Claim C8 (failing input): with no ambient context, a one-parameter method
invoked with zero arguments is not forwarded the same (empty) argument
list: the zero-argument branch forwards `(undefined, [[]])`, where `[[]]`
is the unspread result of `getOptionsAndCallbackArgs([])`. -/
theorem noContext_zeroArg_not_identity :
    oneParamWrapper "aggregate" none id [] = .call [.undef, .arr [.arr []]]
    ∧ PatchedCall.call [.undef, .arr [.arr []]] ≠ PatchedCall.call ([] : List JSVal) := by
  refine ⟨rfl, ?_⟩
  intro h
  injection h with h2
  exact List.noConfusion h2

/-! ## Claim theorems: completion tracker -/

theorem runTracker_append (c : Bool) (t : List CbEvent) (e : CbEvent) :
    runTracker c (t ++ [e]) = trackerStep c (runTracker c t) e := by
  simp [runTracker, List.foldl_append]

theorem tracker_nonneg_aux (c : Bool) (t : List CbEvent) :
    ∀ (a : Nat) (st : TrackerState), wellFormedFrom a t = true →
      (a : Int) ≤ st.callbackCount → 0 ≤ (t.foldl (trackerStep c) st).callbackCount := by
  induction t with
  | nil =>
    intro a st _ ha
    have h0 : (0 : Int) ≤ (a : Int) := Int.ofNat_nonneg a
    simpa using le_trans h0 ha
  | cons e rest ih =>
    intro a st h ha
    cases e with
    | wrap =>
      refine ih (a + 1) _ (by simpa [wellFormedFrom] using h) ?_
      simp only [trackerStep]
      push_cast
      omega
    | complete =>
      simp only [wellFormedFrom, Bool.and_eq_true, decide_eq_true_eq] at h
      refine ih (a - 1) _ h.2 ?_
      simp only [trackerStep]
      have h1 : 1 ≤ a := h.1
      push_cast [h1]
      omega
    | cbError e =>
      simp only [wellFormedFrom, Bool.and_eq_true, decide_eq_true_eq] at h
      refine ih (a - 1) _ h.2 ?_
      have h1 : 1 ≤ a := h.1
      cases c <;> simp only [trackerStep] <;> [skip; skip] <;>
        (first
          | (push_cast [h1]; omega))
    | asyncError e =>
      refine ih a _ (by simpa [wellFormedFrom] using h) ?_
      cases c <;> simp only [trackerStep] <;> exact ha

/-- Claim C9 (amended): within one transaction extent the callback counter starts
at 0, goes up by exactly one at each wrap, down by exactly one at each
normal completion, never becomes negative on a well-formed trace, and
`resolveCallbacks` is invoked exactly at the events where the counter
moves from a positive value (necessarily 1) to 0 — hence possibly more
than once per extent when the counter returns to zero repeatedly. -/
theorem tracker_counter_invariants :
    ∀ (c : Bool),
      runTracker c [] = TrackerState.init
      ∧ (∀ t, (runTracker c (t ++ [CbEvent.wrap])).callbackCount =
          (runTracker c t).callbackCount + 1)
      ∧ (∀ t, (runTracker c (t ++ [CbEvent.complete])).callbackCount =
          (runTracker c t).callbackCount - 1)
      ∧ (∀ t, wellFormed t → 0 ≤ (runTracker c t).callbackCount)
      ∧ (∀ t e, (runTracker c (t ++ [e])).resolveCount =
          (runTracker c t).resolveCount +
            (match e with
             | .complete => if (runTracker c t).callbackCount = 1 then 1 else 0
             | _ => 0)) := by
  intro c
  refine ⟨rfl, ?_, ?_, ?_, ?_⟩
  · intro t
    simp [runTracker_append, trackerStep]
  · intro t
    simp [runTracker_append, trackerStep]
  · intro t hwf
    exact tracker_nonneg_aux c t 0 .init hwf (by simp [TrackerState.init])
  · intro t e
    cases e with
    | wrap => simp [runTracker_append, trackerStep]
    | complete =>
      simp only [runTracker_append, trackerStep]
      have hiff : (runTracker c t).callbackCount - 1 = 0 ↔
          (runTracker c t).callbackCount = 1 := by omega
      by_cases h : (runTracker c t).callbackCount = 1
      · simp [hiff, h]
      · simp [hiff, h]
    | cbError e => cases c <;> simp [runTracker_append, trackerStep]
    | asyncError e => cases c <;> simp [runTracker_append, trackerStep]

theorem tracker_counter_invariants_witness :
    0 ≤ (runTracker true [CbEvent.wrap]).callbackCount :=
  (tracker_counter_invariants true).2.2.2.1 [CbEvent.wrap] rfl

/-- Claim C9 (counterexample to the claim as stated): on the well-formed trace
where a first wrapped callback completes before a second one is wrapped
and completes, the counter reaches zero twice and `resolveCallbacks` is
invoked twice within the same transaction extent, refuting "invoked at
most once". -/
theorem resolveCallbacks_invoked_twice :
    wellFormed [CbEvent.wrap, CbEvent.complete, CbEvent.wrap, CbEvent.complete]
    ∧ (runTracker true
        [CbEvent.wrap, CbEvent.complete, CbEvent.wrap, CbEvent.complete]).resolveCount = 2 := by
  exact ⟨rfl, by decide⟩

/-- Claim C10: the function wrapped around a tracked callback calls the original
callback with the same `this` binding and the same argument list, returns
its result unchanged to the invoker, and its only other effect is the
completion bookkeeping step. -/
theorem wrappedCallback_preserves_call :
    ∀ (catchErrs : Bool) (cb : JSVal → List JSVal → Except JSVal JSVal)
      (st : TrackerState) (thisv : JSVal) (args : List JSVal) (r : JSVal),
      cb thisv args = .ok r →
      invokeWrapped catchErrs cb st thisv args =
        (.ok r, trackerStep catchErrs st .complete) := by
  intro catchErrs cb st thisv args r h
  simp [invokeWrapped, h]

theorem wrappedCallback_preserves_call_witness :
    invokeWrapped true (fun _ _ => .ok (.num 42)) .init .undef [] =
      (.ok (.num 42), trackerStep true .init .complete) :=
  wrappedCallback_preserves_call true (fun _ _ => .ok (.num 42)) .init .undef [] (.num 42) rfl

/-! ## Helper lemmas for the executor -/

def countEnd (evs : List Ev) : Nat :=
  evs.countP (fun ev => ev matches Ev.endSession)

theorem drainCheck_events (ctx : SessionCtx) (w : Bool) :
    (drainCheck ctx w).1 = [] ∨ (drainCheck ctx w).1 = [Ev.waitedForCallbacks] := by
  simp only [drainCheck]
  split
  · split <;> simp
  · simp

theorem drainCheck_skip (ctx : SessionCtx) (w : Bool)
    (h : (runTracker ctx.catchCallbackErrors ctx.preDrain).callbackCount = 0) :
    drainCheck ctx w = ([], none) := by
  simp only [drainCheck]
  split
  · rename_i hcond
    rw [h] at hcond
    exact absurd hcond.2 (lt_irrefl 0)
  · rfl

theorem tracker_errors_eq_captured_aux (t : List CbEvent) :
    ∀ st : TrackerState,
      (t.foldl (trackerStep true) st).callbackErrors = st.callbackErrors ++ captured t := by
  induction t with
  | nil => intro st; simp [captured]
  | cons e rest ih =>
    intro st
    cases e with
    | wrap => simp [trackerStep, captured, ih]
    | complete => simp [trackerStep, captured, ih]
    | cbError e => simp [trackerStep, captured, ih]
    | asyncError e => simp [trackerStep, captured, ih]

/-- With error capture on, the callbackErrors sequence after a trace is
exactly the captured errors in occurrence order. -/
theorem tracker_errors_eq_captured (t : List CbEvent) :
    (runTracker true t).callbackErrors = captured t := by
  simpa [TrackerState.init] using tracker_errors_eq_captured_aux t .init

/-- On an unoccupied slot the nesting guard passes and `runInTransaction`
creates the session, installs the context and runs the selected strategy. -/
theorem runInTransaction_none (env : BackendEnv) (o : CbOracle) (uow : UoW)
    (opts : RunInTransactionOptions) (b : Backend) :
    runInTransaction none env o uow opts b =
      (let ctx : SessionCtx :=
        ⟨opts.waitForCallbacks && opts.catchCallbackErrors, o.preDrain, o.duringDrain⟩
       let out :=
        if opts.retry then runWithRetry env ctx uow opts.waitForCallbacks b
        else runWithoutRetry env ctx uow opts.waitForCallbacks b
       ({ out with events := .createSession :: out.events }, none)) := rfl

theorem countEnd_cons_ne (e : Ev) (evs : List Ev)
    (h : (e matches Ev.endSession) = false) : countEnd (e :: evs) = countEnd evs := by
  simp [countEnd, List.countP_cons, h]

theorem runWithoutRetry_endSession_once (env : BackendEnv) (ctx : SessionCtx)
    (uow : UoW) (waitB : Bool) (b : Backend) :
    countEnd (runWithoutRetry env ctx uow waitB b).events = 1 := by
  rcases drainCheck_events ctx waitB with h | h <;>
  · simp only [runWithoutRetry]
    repeat' split
    all_goals simp only [h]; decide

theorem runWithRetry_endSession_once (env : BackendEnv) (ctx : SessionCtx)
    (uow : UoW) (waitB : Bool) (b : Backend) :
    countEnd (runWithRetry env ctx uow waitB b).events = 1 := by
  rcases drainCheck_events ctx waitB with h | h <;>
  · simp only [runWithRetry]
    repeat' split
    all_goals simp only [h]; decide

/-- Claim C3: on every exit path of `runInTransaction` that reaches session
creation — normal return, unit-of-work error, drain composite error,
commit error or abort error, under either strategy — the session is ended
exactly once and the ambient slot is restored to its prior (empty) value. -/
theorem session_always_ended_slot_restored :
    ∀ (env : BackendEnv) (o : CbOracle) (uow : UoW)
      (opts : RunInTransactionOptions) (b : Backend),
      countEnd (runInTransaction none env o uow opts b).1.events = 1
      ∧ (runInTransaction none env o uow opts b).2 = none := by
  intro env o uow opts b
  rw [runInTransaction_none]
  refine ⟨?_, rfl⟩
  cases hr : opts.retry <;>
    simp only [hr, if_true, if_false, Bool.false_eq_true] <;>
    rw [countEnd_cons_ne _ _ rfl] <;>
    first
      | exact runWithoutRetry_endSession_once env _ uow opts.waitForCallbacks b
      | exact runWithRetry_endSession_once env _ uow opts.waitForCallbacks b

/-- Claim C2: a `runInTransaction` call made while the slot already holds a
context fails at once with the nesting error, performs no backend action
(in particular creates no session), leaves the backend and the slot
intact; a unit of work in an outer transaction that makes such a nested
attempt and catches its error observes exactly the nesting error, and the
outer transaction still commits normally, its writes reaching the store. -/
theorem nested_call_rejected_outer_intact :
    (∀ (ctx : SessionCtx) (env : BackendEnv) (o : CbOracle) (uow : UoW)
       (opts : RunInTransactionOptions) (b : Backend),
       runInTransaction (some ctx) env o uow opts b =
         (⟨.error nestedError, b, []⟩, some ctx))
    ∧ (∀ (ctx : SessionCtx) (env : BackendEnv) (o : CbOracle) (uow : UoW) (b : Backend),
        uow.callsNested = true → uow.outcome = none → env.commitErr = none →
        (interpUoW ctx uow b).nestedResult = some nestedError
        ∧ (runInTransaction none env o uow ⟨false, false, false⟩ b).1.result = .ok uow.ret
        ∧ (runInTransaction none env o uow ⟨false, false, false⟩ b).1.backend.store =
            b.store ++ uow.writes
        ∧ Ev.commitTxn ∈ (runInTransaction none env o uow ⟨false, false, false⟩ b).1.events) := by
  constructor
  · intro ctx env o uow opts b
    rfl
  · intro ctx env o uow b hn ho hc
    refine ⟨by simp [interpUoW, hn, nestingCheck], ?_, ?_, ?_⟩ <;>
    · rw [runInTransaction_none]
      simp [runWithoutRetry, drainCheck, interpUoW, ho, hc]

theorem nested_call_rejected_outer_intact_witness :
    runInTransaction (some ⟨false, [], []⟩) ⟨none, none⟩ ⟨[], []⟩
        ⟨[1], false, none, 0⟩ ⟨false, false, false⟩ ⟨[], []⟩ =
      (⟨.error nestedError, ⟨[], []⟩, []⟩, some ⟨false, [], []⟩)
    ∧ (runInTransaction none ⟨none, none⟩ ⟨[], []⟩ ⟨[2], true, none, 5⟩
        ⟨false, false, false⟩ ⟨[9], []⟩).1.result = .ok 5
    ∧ (runInTransaction none ⟨none, none⟩ ⟨[], []⟩ ⟨[2], true, none, 5⟩
        ⟨false, false, false⟩ ⟨[9], []⟩).1.backend.store = [9, 2] :=
  ⟨nested_call_rejected_outer_intact.1 ⟨false, [], []⟩ ⟨none, none⟩ ⟨[], []⟩
      ⟨[1], false, none, 0⟩ ⟨false, false, false⟩ ⟨[], []⟩,
   (nested_call_rejected_outer_intact.2 ⟨false, [], []⟩ ⟨none, none⟩ ⟨[], []⟩
      ⟨[2], true, none, 5⟩ ⟨[9], []⟩ rfl rfl rfl).2.1,
   (nested_call_rejected_outer_intact.2 ⟨false, [], []⟩ ⟨none, none⟩ ⟨[], []⟩
      ⟨[2], true, none, 5⟩ ⟨[9], []⟩ rfl rfl rfl).2.2.1⟩

/-- Claim C1: under the direct strategy, whichever of the three stages errors —
the unit of work, the drain check (raising the composite callback error,
which supersedes a unit-of-work error per try/finally semantics), or the
commit — the backend transaction is aborted and the originating error is
rethrown, so the store reflects none of the intercepted writes; when the
abort itself fails, the abort failure is what propagates instead. -/
theorem direct_strategy_aborts_and_rethrows :
    ∀ (env : BackendEnv) (o : CbOracle) (uow : UoW)
      (opts : RunInTransactionOptions) (b : Backend) (e : TErr),
      opts.retry = false →
      ((drainCheck ⟨opts.waitForCallbacks && opts.catchCallbackErrors, o.preDrain,
          o.duringDrain⟩ opts.waitForCallbacks).2 = some e
        ∨ ((drainCheck ⟨opts.waitForCallbacks && opts.catchCallbackErrors, o.preDrain,
              o.duringDrain⟩ opts.waitForCallbacks).2 = none
            ∧ uow.outcome = some e)
        ∨ ((drainCheck ⟨opts.waitForCallbacks && opts.catchCallbackErrors, o.preDrain,
              o.duringDrain⟩ opts.waitForCallbacks).2 = none
            ∧ uow.outcome = none ∧ env.commitErr = some e)) →
      (runInTransaction none env o uow opts b).1.result =
        .error (match env.abortErr with | some ae => ae | none => e)
      ∧ Ev.abortTxn ∈ (runInTransaction none env o uow opts b).1.events
      ∧ (runInTransaction none env o uow opts b).1.backend.store = b.store
      ∧ (runInTransaction none env o uow opts b).1.backend.staged = [] := by
  intro env o uow opts b e hr hcase
  rw [runInTransaction_none]
  simp only [hr, Bool.false_eq_true, if_false]
  rcases hcase with h1 | ⟨h1, h2⟩ | ⟨h1, h2, h3⟩
  · cases hab : env.abortErr <;> simp [runWithoutRetry, interpUoW, h1, hab]
  · cases hab : env.abortErr <;> simp [runWithoutRetry, interpUoW, h1, h2, hab]
  · cases hab : env.abortErr <;> simp [runWithoutRetry, interpUoW, h1, h2, h3, hab]

theorem direct_strategy_aborts_and_rethrows_witness :
    (runInTransaction none ⟨none, none⟩ ⟨[], []⟩ ⟨[3], false, some (.error "boom"), 0⟩
        ⟨false, false, false⟩ ⟨[9], []⟩).1.result = .error (.error "boom")
    ∧ Ev.abortTxn ∈ (runInTransaction none ⟨none, none⟩ ⟨[], []⟩
        ⟨[3], false, some (.error "boom"), 0⟩ ⟨false, false, false⟩ ⟨[9], []⟩).1.events
    ∧ (runInTransaction none ⟨none, none⟩ ⟨[], []⟩ ⟨[3], false, some (.error "boom"), 0⟩
        ⟨false, false, false⟩ ⟨[9], []⟩).1.backend.store = [9]
    ∧ (runInTransaction none ⟨none, none⟩ ⟨[], []⟩ ⟨[3], false, some (.error "boom"), 0⟩
        ⟨false, false, false⟩ ⟨[9], []⟩).1.backend.staged = [] :=
  direct_strategy_aborts_and_rethrows ⟨none, none⟩ ⟨[], []⟩
    ⟨[3], false, some (.error "boom"), 0⟩ ⟨false, false, false⟩ ⟨[9], []⟩
    (.error "boom") rfl (Or.inr (Or.inl ⟨rfl, rfl⟩))

/-- Claim C6: with `waitForCallbacks` set and a callback count of zero at the
check in the finally block (no callback ever registered, or all already
completed), the executor does not block on the completion wait and
proceeds directly to the commit/abort decision, under either strategy. -/
theorem drain_skipped_when_no_callbacks :
    ∀ (env : BackendEnv) (o : CbOracle) (uow : UoW)
      (opts : RunInTransactionOptions) (b : Backend),
      opts.waitForCallbacks = true →
      (runTracker (opts.waitForCallbacks && opts.catchCallbackErrors)
        o.preDrain).callbackCount = 0 →
      Ev.waitedForCallbacks ∉ (runInTransaction none env o uow opts b).1.events
      ∧ (Ev.commitTxn ∈ (runInTransaction none env o uow opts b).1.events
         ∨ Ev.abortTxn ∈ (runInTransaction none env o uow opts b).1.events) := by
  intro env o uow opts b hw hcount
  rw [runInTransaction_none]
  have hdc : drainCheck ⟨opts.waitForCallbacks && opts.catchCallbackErrors, o.preDrain,
      o.duringDrain⟩ opts.waitForCallbacks = ([], none) := drainCheck_skip _ _ hcount
  cases hr : opts.retry <;> simp only [hr, Bool.false_eq_true, if_false, if_true] <;>
    cases ho : uow.outcome <;> cases hc : env.commitErr <;> cases hab : env.abortErr <;>
      simp [runWithoutRetry, runWithRetry, hdc, interpUoW, ho, hc, hab]

theorem drain_skipped_when_no_callbacks_witness :
    Ev.waitedForCallbacks ∉ (runInTransaction none ⟨none, none⟩ ⟨[], []⟩
      ⟨[2], false, none, 0⟩ ⟨false, true, false⟩ ⟨[], []⟩).1.events
    ∧ (Ev.commitTxn ∈ (runInTransaction none ⟨none, none⟩ ⟨[], []⟩
        ⟨[2], false, none, 0⟩ ⟨false, true, false⟩ ⟨[], []⟩).1.events
       ∨ Ev.abortTxn ∈ (runInTransaction none ⟨none, none⟩ ⟨[], []⟩
        ⟨[2], false, none, 0⟩ ⟨false, true, false⟩ ⟨[], []⟩).1.events) :=
  drain_skipped_when_no_callbacks ⟨none, none⟩ ⟨[], []⟩ ⟨[2], false, none, 0⟩
    ⟨false, true, false⟩ ⟨[], []⟩ rfl (by decide)

/-- Claim C5 (amended): with `catchCallbackErrors` and `waitForCallbacks` both
set, when the callback count is positive at the drain check (so the wait
path is taken), the drain wait completes (the resolver has been invoked),
and the first captured error is a truthy value, the direct strategy fails
with the single composite error built by `createCallbackError` — its
message derived from the first captured error, its retained sequence being
every captured error in occurrence order — and the transaction aborts
rather than commits (assuming the abort itself succeeds). -/
theorem composite_error_aborts :
    ∀ (env : BackendEnv) (o : CbOracle) (uow : UoW)
      (opts : RunInTransactionOptions) (b : Backend),
      opts.retry = false → opts.waitForCallbacks = true →
      opts.catchCallbackErrors = true →
      0 < (runTracker true o.preDrain).callbackCount →
      0 < (runTracker true (o.preDrain ++ o.duringDrain)).resolveCount →
      truthy ((runTracker true (o.preDrain ++ o.duringDrain)).callbackErrors.getD 0
        .undef) = true →
      env.abortErr = none →
      (runInTransaction none env o uow opts b).1.result =
        .error (.callbackError (callbackMessage (captured (o.preDrain ++ o.duringDrain)))
          (captured (o.preDrain ++ o.duringDrain)))
      ∧ Ev.abortTxn ∈ (runInTransaction none env o uow opts b).1.events
      ∧ Ev.commitTxn ∉ (runInTransaction none env o uow opts b).1.events
      ∧ (runInTransaction none env o uow opts b).1.backend.store = b.store := by
  intro env o uow opts b hr hw hcatch hcount _hres htr hab
  rw [runInTransaction_none]
  simp only [hr, hw, hcatch, Bool.false_eq_true, if_false, Bool.and_self]
  have hdc : drainCheck ⟨true, o.preDrain, o.duringDrain⟩ true =
      ([Ev.waitedForCallbacks],
       some (createCallbackError
        (runTracker true (o.preDrain ++ o.duringDrain)).callbackErrors)) := by
    have htr2 : truthy ((runTracker true
        (o.preDrain ++ o.duringDrain)).callbackErrors[0]?.getD JSVal.undef) = true := by
      simpa [List.getD] using htr
    simp [drainCheck, hcount, htr2]
  simp [runWithoutRetry, hdc, hab, interpUoW, createCallbackError,
    tracker_errors_eq_captured]

theorem composite_error_aborts_witness :
    (runInTransaction none ⟨none, none⟩
        ⟨[.wrap, .asyncError (.errObj "boom"), .asyncError (.str "second")], [.complete]⟩
        ⟨[4], false, none, 2⟩ ⟨false, true, true⟩ ⟨[1], []⟩).1.result =
      .error (.callbackError "boom" [.errObj "boom", .str "second"])
    ∧ Ev.abortTxn ∈ (runInTransaction none ⟨none, none⟩
        ⟨[.wrap, .asyncError (.errObj "boom"), .asyncError (.str "second")], [.complete]⟩
        ⟨[4], false, none, 2⟩ ⟨false, true, true⟩ ⟨[1], []⟩).1.events
    ∧ Ev.commitTxn ∉ (runInTransaction none ⟨none, none⟩
        ⟨[.wrap, .asyncError (.errObj "boom"), .asyncError (.str "second")], [.complete]⟩
        ⟨[4], false, none, 2⟩ ⟨false, true, true⟩ ⟨[1], []⟩).1.events
    ∧ (runInTransaction none ⟨none, none⟩
        ⟨[.wrap, .asyncError (.errObj "boom"), .asyncError (.str "second")], [.complete]⟩
        ⟨[4], false, none, 2⟩ ⟨false, true, true⟩ ⟨[1], []⟩).1.backend.store = [1] :=
  composite_error_aborts ⟨none, none⟩
    ⟨[.wrap, .asyncError (.errObj "boom"), .asyncError (.str "second")], [.complete]⟩
    ⟨[4], false, none, 2⟩ ⟨false, true, true⟩ ⟨[1], []⟩
    rfl rfl rfl (by decide) (by decide) (by decide) rfl

/-- Claim C5 (counterexample to the claim as stated): with `catchCallbackErrors`
and `waitForCallbacks` set and one callback error captured (by a bound
asynchronous function that is not a tracked callback, so the callback
count is back to zero at the drain check), the drain branch — including
its captured-error check — is skipped entirely and the transaction
commits successfully instead of failing with a composite error. -/
theorem captured_error_still_commits :
    captured [CbEvent.asyncError (.errObj "boom")] = [.errObj "boom"]
    ∧ (runTracker true [CbEvent.asyncError (.errObj "boom")]).callbackErrors =
        [.errObj "boom"]
    ∧ (runInTransaction none ⟨none, none⟩ ⟨[CbEvent.asyncError (.errObj "boom")], []⟩
        ⟨[7], false, none, 1⟩ ⟨false, true, true⟩ ⟨[], []⟩).1.result = .ok 1
    ∧ (runInTransaction none ⟨none, none⟩ ⟨[CbEvent.asyncError (.errObj "boom")], []⟩
        ⟨[7], false, none, 1⟩ ⟨false, true, true⟩ ⟨[], []⟩).1.backend.store = [7]
    ∧ Ev.commitTxn ∈ (runInTransaction none ⟨none, none⟩
        ⟨[CbEvent.asyncError (.errObj "boom")], []⟩
        ⟨[7], false, none, 1⟩ ⟨false, true, true⟩ ⟨[], []⟩).1.events
    ∧ Ev.abortTxn ∉ (runInTransaction none ⟨none, none⟩
        ⟨[CbEvent.asyncError (.errObj "boom")], []⟩
        ⟨[7], false, none, 1⟩ ⟨false, true, true⟩ ⟨[], []⟩).1.events := by
  refine ⟨rfl, rfl, rfl, rfl, ?_, ?_⟩ <;> decide

end MongoTx
